import Mathlib

/-!
# arkstudy processing-task orchestrator — shallow embedding

This file embeds, in Lean, the parts of the arkstudy repository that the
specification's claims are about:

* `splitTextToChunks` and the OCR completion path `handleOCR`
  (services/material-service/handler/grpc/material_rpc.go),
* the processing-result repository `UpdateByTaskID` (gorm `Updates` with a
  column map, scoped by `task_id`),
* the service-level `ProcessMaterial`, `UpdateProcessingResult`,
  `GetProcessingResult` and the gRPC wrapper for `UpdateProcessingResult`,
* the ocr-service worker adapter `getTask`, `ProcessOCR`, `GetTaskStatus`
  (services/ocr-service/service/service.go),
* the ocr-service Kafka consumer's per-message callback behaviour.

Modelling conventions:

* Go strings are modelled as `String` where only equality matters
  (identifiers, statuses, contents) and as `List Char` where the code
  iterates over bytes/characters (the chunker).  Go `len(s)` is the UTF-8
  byte length, modelled by `byteLen`.
* UUIDs are opaque identifiers, modelled as `String`; fresh identifiers
  produced by `uuid.New()` are passed in as explicit parameters.
* Database rows live in Lean lists in creation order; gorm's
  `Order("created_at DESC").First` therefore returns the last matching
  element.  `created_at`/`updated_at` timestamps are not modelled
  (real time is outside the embedding).
* External effects (MinIO presign, gRPC dials, Kafka publishes, the
  worker's outcome) are resolved by explicit environment parameters of
  `Except`/inductive type, one per call site, mirroring the Go error
  checks branch for branch.
* Goroutines (`go f(...)`) are modelled as separate state-transforming
  functions applied after the spawning step returns.
-/

set_option autoImplicit false

namespace ArkStudy

/-! ## Byte lengths and Go-style whitespace trimming -/

/-- Go `len(s)`: the UTF-8 byte length of a string, as a list of characters. -/
def byteLen (cs : List Char) : Nat := (cs.map Char.utf8Size).sum

/-- `unicode.IsSpace` restricted to Latin-1 (the only code points the
claims' inputs contain): space, tab, newline, vertical tab, form feed,
carriage return, NEL, NBSP. -/
def isGoSpace (c : Char) : Bool :=
  c = ' ' || c = '\t' || c = '\n' || c = Char.ofNat 11 || c = Char.ofNat 12 ||
  c = '\r' || c = Char.ofNat 0x85 || c = Char.ofNat 0xA0

/-- Go `strings.TrimSpace`: drop leading and trailing whitespace. -/
def trimSpace (cs : List Char) : List Char :=
  ((cs.dropWhile isGoSpace).reverse.dropWhile isGoSpace).reverse

/-- Go `strings.Split(text, "\n")` for the single-character separator. -/
def splitOnNl : List Char → List (List Char)
  | [] => [[]]
  | c :: cs =>
    if c = '\n' then [] :: splitOnNl cs
    else
      match splitOnNl cs with
      | [] => [[c]]
      | l :: ls => (c :: l) :: ls

/-! ## splitTextToChunks (material_rpc.go)

```go
func splitTextToChunks(text string) []string {
    text = strings.TrimSpace(text)
    if text == "" { return nil }
    maxLen := 500
    var out []string
    var cur strings.Builder
    for _, line := range strings.Split(text, "\n") {
        line = strings.TrimSpace(line)
        if line == "" { continue }
        if cur.Len()+len(line)+1 > maxLen {
            out = append(out, cur.String())
            cur.Reset()
        }
        if cur.Len() > 0 { cur.WriteString("\n") }
        cur.WriteString(line)
    }
    if cur.Len() > 0 { out = append(out, cur.String()) }
    return out
}
```
-/

/-- The loop body of `splitTextToChunks`: `out` is the accumulated chunk
list, `cur` the current builder contents. -/
def chunksLoop : List (List Char) → List (List Char) → List Char → List (List Char)
  | [], out, cur => if byteLen cur > 0 then out ++ [cur] else out
  | l :: rest, out, cur =>
    let line := trimSpace l
    if line = [] then chunksLoop rest out cur
    else
      let p := if byteLen cur + byteLen line + 1 > 500 then (out ++ [cur], ([] : List Char))
               else (out, cur)
      let cur2 := if byteLen p.2 > 0 then p.2 ++ '\n' :: line else p.2 ++ line
      chunksLoop rest p.1 cur2

/-- `splitTextToChunks` from material_rpc.go, on character lists. -/
def splitTextToChunks (text : List Char) : List (List Char) :=
  let t := trimSpace text
  if t = [] then [] else chunksLoop (splitOnNl t) [] []

/-- Joining a block of lines with newlines, as the builder produces it. -/
def joinNl : List (List Char) → List Char
  | [] => []
  | [l] => l
  | l :: l' :: ls => l ++ '\n' :: joinNl (l' :: ls)

/-- The trimmed, non-empty lines of the (trimmed) input — the units the
chunker is allowed to regroup but never to cut. -/
def cleanLines (text : List Char) : List (List Char) :=
  ((splitOnNl (trimSpace text)).map trimSpace).filter (fun l => l ≠ [])

/-! ## Material-service data model (models/processing_result.go, models/material.go)

`ProcessingResult` carries the columns the orchestrator reads and writes;
`created_at`/`updated_at` timestamps and the preloaded `Material`
association are not modelled.  `Metadata` is a nullable JSON object
(`datatypes.JSON`, column `jsonb`); its values in this codebase are
booleans, strings and integers. -/

/-- A JSON metadata value (`map[string]interface{}` values used by the code). -/
inductive MetaVal where
  | mvBool (b : Bool)
  | mvStr (s : String)
  | mvInt (n : Int)
  deriving DecidableEq, Repr

/-- A JSON metadata object; `none` at the row level models SQL `NULL`. -/
abbrev Meta := List (String × MetaVal)

/-- Status constants from models/processing_result.go. -/
def ProcessingStatusPending : String := "pending"

def ProcessingStatusProcessing : String := "processing"

def ProcessingStatusCompleted : String := "completed"

def ProcessingStatusFailed : String := "failed"

/-- Processing-type constant from models/processing_result.go. -/
def ProcessingTypeOCR : String := "OCR"

/-- One row of the `processing_results` table. -/
structure ProcessingResult where
  materialID : String
  taskID : String
  ptype : String
  status : String
  content : String
  metadata : Option Meta
  errorMessage : String
  deriving DecidableEq, Repr

/-- A material row; only the fields the orchestrator reads are modelled. -/
structure Material where
  id : String
  userID : String
  fileType : String
  deriving DecidableEq, Repr

/-- The `processing_results` table, in creation order. -/
abbrev TaskStore := List ProcessingResult

/-! ## Processing-result repository (repository/processing_result_repository.go) -/

/-- A value placed in a gorm `Updates` column map. -/
inductive ColVal where
  | str (v : String)
  | meta (v : Meta)
  deriving DecidableEq, Repr

/-- Applying one column of a gorm `Updates` map to a row.  Only the columns
this codebase ever writes are interpreted. -/
def applyCol (r : ProcessingResult) : String × ColVal → ProcessingResult
  | ("status", .str v) => { r with status := v }
  | ("content", .str v) => { r with content := v }
  | ("error_message", .str v) => { r with errorMessage := v }
  | ("metadata", .meta v) => { r with metadata := some v }
  | _ => r

/-- `UpdateByTaskID`: gorm `Model(&ProcessingResult{}).Where("task_id = ?",
taskID).Updates(updates)`.  Every row matching the task id receives the
column updates; zero matched rows is not an error. -/
def UpdateByTaskID (tasks : TaskStore) (taskID : String)
    (updates : List (String × ColVal)) : TaskStore :=
  tasks.map fun r => if r.taskID = taskID then updates.foldl applyCol r else r

/-- `GetByMaterialIDAndType`: `Where("material_id = ? AND type = ?")
.Order("created_at DESC").First` — the most recently created matching row,
`none` when there is no match (gorm `ErrRecordNotFound`). -/
def GetByMaterialIDAndType (tasks : TaskStore) (mid ptype : String) :
    Option ProcessingResult :=
  (tasks.filter fun r => r.materialID = mid && r.ptype = ptype).getLast?

/-- `GetByTaskID`: first row with the given task id. -/
def GetByTaskID (tasks : TaskStore) (taskID : String) : Option ProcessingResult :=
  tasks.find? fun r => r.taskID = taskID

/-- Material repository `GetByID`. -/
def getMaterialByID (mats : List Material) (id : String) : Option Material :=
  mats.find? fun m => m.id = id

/-! ## Service layer (material_rpc.go, MaterialServiceImpl) -/

/-- `UpdateProcessingResult(taskID, status, content, metadata, errorMessage)`:

```go
updates := map[string]interface{}{"status": status, "content": content}
if metadata != nil { updates["metadata"] = metadata }
if errorMessage != "" { updates["error_message"] = errorMessage }
return s.processingRepo.UpdateByTaskID(taskID, updates)
```
-/
def UpdateProcessingResult (tasks : TaskStore) (taskID status content : String)
    (metadata : Option Meta) (errorMessage : String) : TaskStore :=
  let u1 := [("status", ColVal.str status), ("content", ColVal.str content)]
  let u2 := match metadata with
    | some m => u1 ++ [("metadata", ColVal.meta m)]
    | none => u1
  let u3 := if errorMessage = "" then u2 else u2 ++ [("error_message", ColVal.str errorMessage)]
  UpdateByTaskID tasks taskID u3

/-- `GetProcessingResult(materialID, processType)` delegates to
`GetByMaterialIDAndType`. -/
def GetProcessingResult (tasks : TaskStore) (mid ptype : String) :
    Option ProcessingResult :=
  GetByMaterialIDAndType tasks mid ptype

/-- The state the material service mutates: the two tables. -/
structure MatSvcState where
  materials : List Material
  tasks : TaskStore
  deriving DecidableEq, Repr

/-- Outcome of `ProcessMaterial` at the service layer: a Go
`(*ProcessingResult, error)` pair. -/
inductive PMResult where
  | err (msg : String)
  | ok (task : ProcessingResult)
  deriving DecidableEq, Repr

/-- External outcomes resolved during `ProcessMaterial`'s dispatch step:
whether the Kafka route is configured (`textExtractedKafkaWriter != nil`),
and the results of presigning the download URL, marshalling the job and
publishing it. -/
structure DispatchEnv where
  kafkaConfigured : Bool
  presign : Except String String
  marshal : Except String Unit
  publish : Except String Unit
  deriving Repr

/-- `ProcessMaterial(materialID, userID, processType, options)` from
material_rpc.go lines 800–869.  `freshID` stands for `uuid.New().String()`.
The fall-back branch spawns `go callAIService(...)`; that goroutine's later
effect is `handleOCR` below, applied as a separate step. -/
def ProcessMaterial (env : DispatchEnv) (freshID : String) (st : MatSvcState)
    (materialID userID processType : String) : PMResult × MatSvcState :=
  match getMaterialByID st.materials materialID with
  | none => (.err "material not found", st)
  | some material =>
    if material.userID ≠ userID then
      (.err "permission denied: material does not belong to user", st)
    else
      let existing := GetByMaterialIDAndType st.tasks materialID processType
      match existing with
      | some ex =>
        if ex.status = ProcessingStatusCompleted then (.ok ex, st)
        else ProcessMaterial.createAndDispatch env freshID st materialID userID processType
      | none => ProcessMaterial.createAndDispatch env freshID st materialID userID processType
where
  /-- Steps 3–5 of `ProcessMaterial`: create the PENDING row, then dispatch.
  (The caller's user id only reaches the job payload, which is opaque here.) -/
  createAndDispatch (env : DispatchEnv) (freshID : String) (st : MatSvcState)
      (materialID _userID processType : String) : PMResult × MatSvcState :=
    let result : ProcessingResult :=
      { materialID := materialID, taskID := freshID, ptype := processType
        status := ProcessingStatusPending, content := "", metadata := none
        errorMessage := "" }
    let st1 : MatSvcState := { st with tasks := st.tasks ++ [result] }
    if processType = ProcessingTypeOCR ∧ env.kafkaConfigured then
      match env.presign with
      | .error e =>
        let ts := UpdateProcessingResult st1.tasks result.taskID ProcessingStatusFailed ""
          none ("presign: " ++ e)
        (.ok result, { st1 with tasks := ts })
      | .ok _url =>
        match env.marshal with
        | .error e =>
          let ts := UpdateProcessingResult st1.tasks result.taskID ProcessingStatusFailed ""
            none ("marshal job: " ++ e)
          (.ok result, { st1 with tasks := ts })
        | .ok _ =>
          match env.publish with
          | .error e =>
            let ts := UpdateProcessingResult st1.tasks result.taskID ProcessingStatusFailed ""
              none ("kafka publish: " ++ e)
            (.ok result, { st1 with tasks := ts })
          | .ok _ =>
            let ts := UpdateProcessingResult st1.tasks result.taskID
              ProcessingStatusProcessing "" (some [("dispatched", .mvBool true)]) ""
            (.ok result, { st1 with tasks := ts })
    else
      -- `go s.callAIService(...)` — asynchronous; the caller returns at once.
      (.ok result, st1)

/-! ## Poll-driven reconciliation: `handleOCR` (material_rpc.go lines 914–1010)

The loop's interaction with the worker is summarised by its observable
outcome: the worker reached COMPLETED before the deadline, reached FAILED
(with the worker's error message), or the deadline elapsed. -/

/-- Outcome of the 10-minute polling loop against the OCR worker. -/
inductive PollOutcome where
  | completed
  | failed (workerErrorMessage : String)
  | timeout
  deriving DecidableEq, Repr

/-- External outcomes resolved during `handleOCR`. -/
structure OCREnv where
  presign : Except String String
  dialOcr : Except String Unit
  processOcr : Except String Unit
  poll : PollOutcome
  fetchResult : Except String String
  dialLlm : Except String Unit
  upsert : Except String Int
  deriving Repr

/-- `handleOCR(material, result)`: the synchronous-orchestration fall-back.
On worker COMPLETED it re-invokes `ProcessOCR` to fetch the text
(`env.fetchResult`), splits it into chunks and batch-upserts them; any
failure on the way marks the task FAILED with the shown reason. -/
def handleOCR (env : OCREnv) (taskID : String) (tasks : TaskStore) : TaskStore :=
  let fail (reason : String) : TaskStore :=
    UpdateProcessingResult tasks taskID ProcessingStatusFailed "" none reason
  match env.presign with
  | .error e => fail ("presign: " ++ e)
  | .ok _url =>
    match env.dialOcr with
    | .error e => fail ("dial ocr: " ++ e)
    | .ok _ =>
      match env.processOcr with
      | .error e => fail ("process ocr: " ++ e)
      | .ok _ =>
        match env.poll with
        | .failed msg => fail msg
        | .timeout => fail "ocr timeout or empty"
        | .completed =>
          match env.fetchResult with
          | .error e => fail ("fetch ocr result: " ++ e)
          | .ok finalText =>
            if finalText = "" then fail "ocr timeout or empty"
            else
              let chunks := splitTextToChunks finalText.data
              if chunks = [] then fail "no chunks"
              else
                match env.dialLlm with
                | .error e => fail ("dial llm: " ++ e)
                | .ok _ =>
                  match env.upsert with
                  | .error e => fail ("upsert chunks: " ++ e)
                  | .ok inserted =>
                    UpdateProcessingResult tasks taskID ProcessingStatusCompleted
                      "embedded" (some [("chunks", .mvInt inserted)]) ""

/-! ## gRPC wrapper for the callback entry point (material_rpc.go lines 337–375) -/

/-- The `material.ProcessingStatus` protobuf enum values used on the wire. -/
inductive ProtoPStatus where
  | pending
  | processing
  | completed
  | failed
  deriving DecidableEq, Repr

/-- `convertProcessingStatus`: proto enum → model status string. -/
def convertProcessingStatus : ProtoPStatus → String
  | .pending => ProcessingStatusPending
  | .processing => ProcessingStatusProcessing
  | .completed => ProcessingStatusCompleted
  | .failed => ProcessingStatusFailed

/-- `convertMetadata`: `map[string]string` → `map[string]interface{}` — in
particular the result is never the nil map, even when empty. -/
def convertMetadata (protoMetadata : List (String × String)) : Meta :=
  protoMetadata.map fun kv => (kv.1, .mvStr kv.2)

/-- Response of the gRPC `UpdateProcessingResult` wrapper. -/
structure UpdateResponse where
  success : Bool
  message : String
  deriving DecidableEq, Repr

/-- `MaterialRPCServer.UpdateProcessingResult`: validates the task id,
converts status and metadata, and calls the service layer. -/
def UpdateProcessingResultRPC (tasks : TaskStore) (taskId : String)
    (status : ProtoPStatus) (content : String) (metadata : List (String × String))
    (errorMessage : String) : UpdateResponse × TaskStore :=
  if taskId = "" then
    ({ success := false, message := "task_id is required" }, tasks)
  else
    let status' := convertProcessingStatus status
    if status' = "" then
      ({ success := false, message := "unsupported status" }, tasks)
    else
      let tasks' := UpdateProcessingResult tasks taskId status' content
        (some (convertMetadata metadata)) errorMessage
      ({ success := true, message := "Processing result updated successfully" }, tasks')

/-! ## OCR worker adapter (services/ocr-service/service/service.go)

The adapter keeps two in-memory maps keyed by task id: `statusStore`
(mutable task status records) and `ocrStore` (cached final results).
Association lists in insertion order model the maps.  `runOCRTask` runs in
a spawned goroutine; whether a call spawned it is returned as an explicit
`Bool` (the job-start observation the re-entrancy claim is about). -/

/-- The `ai.TaskStatus` protobuf enum. -/
inductive AIStatus where
  | queued
  | processing
  | completed
  | failed
  deriving DecidableEq, Repr

/-- An `ai.TaskStatusResponse` record as stored in `statusStore`.
`Progress` is a float in Go; the claims never inspect it, and the discrete
values the code writes are represented exactly as rationals. -/
structure TaskStatusResponse where
  taskId : String
  status : AIStatus
  message : String
  errorMessage : String
  progress : Rat
  deriving DecidableEq, Repr

/-- An `ai.OCRResponse` as cached in `ocrStore` (confidence and boxes are
never read by the orchestrator and are not modelled). -/
structure OCRResponse where
  taskId : String
  status : AIStatus
  text : String
  deriving DecidableEq, Repr

/-- The OCR service's in-memory state. -/
structure OCRState where
  statusStore : List (String × TaskStatusResponse)
  ocrStore : List (String × OCRResponse)
  deriving DecidableEq, Repr

/-- Map lookup on an association list. -/
def alookup {α : Type} (l : List (String × α)) (k : String) : Option α :=
  (l.find? fun kv => kv.1 = k).map Prod.snd

/-- Map insert/overwrite on an association list. -/
def aupdate {α : Type} (l : List (String × α)) (k : String) (v : α) :
    List (String × α) :=
  if (l.find? fun kv => kv.1 = k).isSome then
    l.map fun kv => if kv.1 = k then (k, v) else kv
  else l ++ [(k, v)]

/-- `getTask(taskID)`: return the tracked record, or register (and return)
a fresh QUEUED record for an unknown id. -/
def getTask (st : OCRState) (taskID : String) : TaskStatusResponse × OCRState :=
  match alookup st.statusStore taskID with
  | some t => (t, st)
  | none =>
    let t : TaskStatusResponse :=
      { taskId := taskID, status := .queued, message := "queued"
        errorMessage := "", progress := 0 }
    (t, { st with statusStore := aupdate st.statusStore taskID t })

/-- `ProcessOCR(ctx, req)`.  `freshID` stands for `uuid.NewString()`; the
third component reports whether `go s.runOCRTask(req, t)` was spawned. -/
def ProcessOCR (st : OCRState) (freshID : String) (taskId0 fileUrl : String) :
    OCRResponse × OCRState × Bool :=
  let taskId := if taskId0 = "" then freshID else taskId0
  match alookup st.ocrStore taskId with
  | some res => (res, st, false)
  | none =>
    let (t, st1) := getTask st taskId
    if trimSpace fileUrl.data = [] then
      ({ taskId := taskId, status := t.status, text := "" }, st1, false)
    else
      if t.status = .queued ∨ t.status = .failed then
        let t' := { t with status := .processing, message := "downloading" }
        let st2 := { st1 with statusStore := aupdate st1.statusStore taskId t' }
        ({ taskId := taskId, status := t'.status, text := "" }, st2, true)
      else
        ({ taskId := taskId, status := t.status, text := "" }, st1, false)

/-- `GetTaskStatus(ctx, req)`: an empty task id is replaced by a fresh
uuid; the reply is always `getTask` — never a NotFound error. -/
def GetTaskStatus (st : OCRState) (freshID : String) (taskId0 : String) :
    TaskStatusResponse × OCRState :=
  let taskId := if taskId0 = "" then freshID else taskId0
  getTask st taskId

/-! ## Queue-consumer callback (ocr-service main.go, `startConsumer`)

After submitting the job, the consumer polls to a terminal outcome and
then calls back `UpdateProcessingResult` over gRPC with
`Metadata = {"source": "ocr-service"}` and — on every path —
`ErrorMessage: ""`. -/

/-- The terminal outcome the consumer's poll loop observed for a job. -/
inductive ConsumerOutcome where
  | completed (text : String)
  | fetchFailed
  | workerFailed
  | timeout
  deriving DecidableEq, Repr

/-- The callback the consumer makes for one job message: `status` defaults
to FAILED and becomes COMPLETED only when the final fetch succeeded;
`content` is the fetched text or empty; the error message sent is always
the empty string. -/
def consumerCallback (tasks : TaskStore) (taskID : String)
    (outcome : ConsumerOutcome) : UpdateResponse × TaskStore :=
  let (status, content) : ProtoPStatus × String :=
    match outcome with
    | .completed text => (.completed, text)
    | .fetchFailed => (.failed, "")
    | .workerFailed => (.failed, "")
    | .timeout => (.failed, "")
  UpdateProcessingResultRPC tasks taskID status content
    [("source", "ocr-service")] ""

/-! ## Characterisation of the update path -/

/-- Row-level effect of one `UpdateProcessingResult` call: status and
content are overwritten unconditionally; metadata only when non-nil;
error_message only when non-empty. -/
def updatedRow (s c : String) (md : Option Meta) (em : String)
    (r : ProcessingResult) : ProcessingResult :=
  { r with
    status := s
    content := c
    metadata := match md with | some m => some m | none => r.metadata
    errorMessage := if em = "" then r.errorMessage else em }

theorem updateProcessingResult_eq_map (ts : TaskStore) (t s c : String)
    (md : Option Meta) (em : String) :
    UpdateProcessingResult ts t s c md em =
      ts.map fun r => if r.taskID = t then updatedRow s c md em r else r := by
  unfold UpdateProcessingResult UpdateByTaskID
  rcases md with _ | m <;> by_cases hem : em = "" <;>
    simp [hem, List.foldl, applyCol, updatedRow]

/-- `updatedRow` preserves the task id. -/
theorem updatedRow_taskID (s c : String) (md : Option Meta) (em : String)
    (r : ProcessingResult) : (updatedRow s c md em r).taskID = r.taskID := rfl

/-- Applying the same update twice to a row equals applying it once. -/
theorem updatedRow_idem (s c : String) (md : Option Meta) (em : String)
    (r : ProcessingResult) :
    updatedRow s c md em (updatedRow s c md em r) = updatedRow s c md em r := by
  rcases md with _ | m <;> by_cases hem : em = "" <;>
    simp [updatedRow, hem]

/-! ## C9 — frame of `UpdateProcessingResult` -/

/-- C9: `UpdateProcessingResult` unconditionally overwrites only the
status and content columns of rows matching the task id: nil metadata
leaves the stored metadata unchanged, an empty error message leaves the
stored error message unchanged (so a recorded failure reason is never
cleared by a later empty-reason update), and every other field — and every
row with a different task id — is untouched. -/
theorem updateProcessingResult_frame (ts : TaskStore) (t s c : String)
    (md : Option Meta) (em : String) :
    UpdateProcessingResult ts t s c md em =
      ts.map fun r =>
        if r.taskID = t then
          { r with
            status := s
            content := c
            metadata := match md with | some m => some m | none => r.metadata
            errorMessage := if em = "" then r.errorMessage else em }
        else r := by
  simpa [updatedRow] using updateProcessingResult_eq_map ts t s c md em

/-! ## C6 — idempotence of the callback update -/

/-- C6: repeating an `UpdateProcessingResult` call with identical task id,
status, content, metadata and error reason is a no-op — the second call
returns the exact store produced by the first (and, the update path being
total, neither call fails). -/
theorem updateProcessingResult_idempotent (ts : TaskStore) (t s c : String)
    (md : Option Meta) (em : String) :
    UpdateProcessingResult (UpdateProcessingResult ts t s c md em) t s c md em =
      UpdateProcessingResult ts t s c md em := by
  simp only [updateProcessingResult_eq_map, List.map_map]
  apply List.map_congr_left
  intro r _
  by_cases h : r.taskID = t
  · simp [Function.comp, h, updatedRow_taskID, updatedRow_idem]
  · simp [Function.comp, h]

/-! ## C2 — COMPLETED is not terminal -/

/-- A COMPLETED task row used as a concrete counterexample. -/
def doneTask : ProcessingResult :=
  { materialID := "m1", taskID := "t1", ptype := "OCR"
    status := "completed", content := "done", metadata := none
    errorMessage := "" }

/-- C2 counterexample: a task whose status is COMPLETED is not immutable —
a subsequent `UpdateProcessingResult` call with status FAILED overwrites
its status, content and error reason. -/
theorem updateProcessingResult_overwrites_completed_cex :
    doneTask.status = ProcessingStatusCompleted ∧
    UpdateProcessingResult [doneTask] "t1" ProcessingStatusFailed "" none "boom" =
      [{ doneTask with status := ProcessingStatusFailed, content := ""
                       errorMessage := "boom" }] ∧
    UpdateProcessingResult [doneTask] "t1" ProcessingStatusFailed "" none "boom" ≠
      [doneTask] := by
  refine ⟨rfl, ?_, ?_⟩ <;> decide

/-- C2 amended: no status transition is enforced — `UpdateProcessingResult`
stores the caller-supplied status unconditionally, so after any call every
row with the target task id carries the supplied status, even when it was
COMPLETED before. -/
theorem updateProcessingResult_status_unconditional (ts : TaskStore)
    (t s c : String) (md : Option Meta) (em : String) (r : ProcessingResult)
    (hmem : r ∈ UpdateProcessingResult ts t s c md em) (hid : r.taskID = t) :
    r.status = s := by
  rw [updateProcessingResult_eq_map] at hmem
  rcases List.mem_map.mp hmem with ⟨a, _, ha⟩
  by_cases h : a.taskID = t
  · rw [if_pos h] at ha
    rw [← ha]
    rfl
  · rw [if_neg h] at ha
    exact absurd (ha ▸ hid) h

/-- Witness for C2's amended theorem at the COMPLETED counterexample row. -/
theorem updateProcessingResult_status_unconditional_witness :
    ({ doneTask with status := ProcessingStatusFailed, content := ""
                     errorMessage := "boom" } : ProcessingResult).status =
      ProcessingStatusFailed :=
  updateProcessingResult_status_unconditional [doneTask] "t1"
    ProcessingStatusFailed "" none "boom" _ (by decide) (by decide)

/-! ## C8 — ownership check precedes task creation -/

/-- C8: `ProcessMaterial` invoked by a user who does not own the material
fails with the permission-denied error, and the whole state — in
particular the task store — is returned unchanged (no task row created). -/
theorem processMaterial_permission_denied (env : DispatchEnv) (fresh : String)
    (st : MatSvcState) (mid uid pt : String) (mat : Material)
    (hmat : getMaterialByID st.materials mid = some mat)
    (hown : mat.userID ≠ uid) :
    ProcessMaterial env fresh st mid uid pt =
      (.err "permission denied: material does not belong to user", st) := by
  unfold ProcessMaterial
  rw [hmat]
  simp [hown]

/-- Concrete dispatch environment: Kafka route not configured (fall-back
path), all external calls succeeding. -/
def envFallback : DispatchEnv :=
  { kafkaConfigured := false, presign := .ok "http://example/u"
    marshal := .ok (), publish := .ok () }

/-- A material owned by user `u1`. -/
def matM1 : Material := { id := "m1", userID := "u1", fileType := "image" }

/-- Witness for C8: user `u2` asking to process `u1`'s material is denied
and the store stays empty. -/
theorem processMaterial_permission_denied_witness :
    ProcessMaterial envFallback "t1" ⟨[matM1], []⟩ "m1" "u2" "OCR" =
      (.err "permission denied: material does not belong to user",
        (⟨[matM1], []⟩ : MatSvcState)) :=
  processMaterial_permission_denied envFallback "t1" ⟨[matM1], []⟩ "m1" "u2"
    "OCR" matM1 (by decide) (by decide)

/-! ## C1 — duplicate-dispatch guard only covers COMPLETED -/

/-- A PENDING task for `(m1, OCR)`. -/
def pendTask : ProcessingResult :=
  { materialID := "m1", taskID := "t1", ptype := "OCR"
    status := "pending", content := "", metadata := none, errorMessage := "" }

/-- The row `ProcessMaterial` creates for `(m1, OCR)` with fresh id `t2`. -/
def newTaskC1 : ProcessingResult :=
  { materialID := "m1", taskID := "t2", ptype := "OCR"
    status := "pending", content := "", metadata := none, errorMessage := "" }

/-- State with material `m1` and a PENDING task for `(m1, OCR)`. -/
def stC1 : MatSvcState := ⟨[matM1], [pendTask]⟩

/-- C1 counterexample: while a PENDING task for `(m1, OCR)` exists, a
second `ProcessMaterial` call does not return the existing task — it
creates and returns a second row with a fresh task identifier. -/
theorem processMaterial_pending_duplicate_cex :
    GetByMaterialIDAndType stC1.tasks "m1" "OCR" = some pendTask ∧
    pendTask.status = ProcessingStatusPending ∧
    ProcessMaterial envFallback "t2" stC1 "m1" "u1" "OCR" =
      (.ok newTaskC1, ⟨[matM1], [pendTask, newTaskC1]⟩) ∧
    newTaskC1.taskID ≠ pendTask.taskID := by
  refine ⟨?_, rfl, ?_, ?_⟩ <;> decide

/-- Length of the store is unchanged by an update. -/
theorem updateProcessingResult_length (ts : TaskStore) (t s c : String)
    (md : Option Meta) (em : String) :
    (UpdateProcessingResult ts t s c md em).length = ts.length := by
  rw [updateProcessingResult_eq_map, List.length_map]

/-- `createAndDispatch` always returns the freshly created PENDING row and
leaves the store one row longer, whatever the dispatch route and its
external outcomes. -/
theorem createAndDispatch_spec (env : DispatchEnv) (fresh : String)
    (st : MatSvcState) (mid uid pt : String) :
    (ProcessMaterial.createAndDispatch env fresh st mid uid pt).1 =
      .ok { materialID := mid, taskID := fresh, ptype := pt
            status := ProcessingStatusPending, content := "", metadata := none
            errorMessage := "" } ∧
    (ProcessMaterial.createAndDispatch env fresh st mid uid pt).2.tasks.length =
      st.tasks.length + 1 := by
  unfold ProcessMaterial.createAndDispatch
  rcases env with ⟨k, pr, ma, pu⟩
  by_cases hk : pt = ProcessingTypeOCR ∧ k = true
  · obtain ⟨hpt, hkc⟩ := hk
    subst hpt
    subst hkc
    rcases pr with e | u <;> rcases ma with e' | u' <;> rcases pu with e'' | u'' <;>
      simp [updateProcessingResult_length]
  · simp [hk]

/-- C1 amended: only an existing COMPLETED task short-circuits task
creation — `ProcessMaterial` then returns the cached task and leaves the
store unchanged; when the most recent task for the pair has any other
status (in particular PENDING or PROCESSING), a brand-new row with the
fresh identifier is created and returned, growing the store by one row. -/
theorem processMaterial_create_semantics (env : DispatchEnv) (fresh : String)
    (st : MatSvcState) (mid uid pt : String) (mat : Material)
    (ex : ProcessingResult)
    (hmat : getMaterialByID st.materials mid = some mat)
    (hown : mat.userID = uid)
    (hex : GetByMaterialIDAndType st.tasks mid pt = some ex) :
    (ex.status = ProcessingStatusCompleted →
      ProcessMaterial env fresh st mid uid pt = (.ok ex, st)) ∧
    (ex.status ≠ ProcessingStatusCompleted →
      (ProcessMaterial env fresh st mid uid pt).1 =
        .ok { materialID := mid, taskID := fresh, ptype := pt
              status := ProcessingStatusPending, content := "", metadata := none
              errorMessage := "" } ∧
      (ProcessMaterial env fresh st mid uid pt).2.tasks.length =
        st.tasks.length + 1) := by
  constructor
  · intro hdone
    unfold ProcessMaterial
    rw [hmat]
    simp [hown, hex, hdone]
  · intro hnot
    have : ProcessMaterial env fresh st mid uid pt =
        ProcessMaterial.createAndDispatch env fresh st mid uid pt := by
      unfold ProcessMaterial
      rw [hmat]
      simp [hown, hex, hnot]
    rw [this]
    exact createAndDispatch_spec env fresh st mid uid pt

/-- Witness for C1's amended theorem at the PENDING-task state: the second
call grows the store from one row to two. -/
theorem processMaterial_create_semantics_witness :
    (ProcessMaterial envFallback "t2" stC1 "m1" "u1" "OCR").2.tasks.length =
      stC1.tasks.length + 1 :=
  ((processMaterial_create_semantics envFallback "t2" stC1 "m1" "u1" "OCR"
    matM1 pendTask (by decide) (by decide) (by decide)).2 (by decide)).2

/-! ## C4 — ingestion failure is not COMPLETED-with-metadata -/

/-- A task row in PROCESSING after a successful dispatch. -/
def procTask : ProcessingResult :=
  { materialID := "m1", taskID := "t1", ptype := "OCR"
    status := "processing", content := ""
    metadata := some [("dispatched", .mvBool true)], errorMessage := "" }

/-- `handleOCR` environment: everything succeeds up to the chunk upsert,
which fails. -/
def envC4 : OCREnv :=
  { presign := .ok "http://example/u", dialOcr := .ok (), processOcr := .ok ()
    poll := .completed, fetchResult := .ok "hello", dialLlm := .ok ()
    upsert := .error "boom" }

/-- C4 counterexample: when extraction succeeded ("hello") but
`UpsertChunks` fails, `handleOCR` transitions the task to FAILED with
reason "upsert chunks: boom" — not to COMPLETED with an
ingestion-failure flag in metadata. -/
theorem ingestion_failure_marks_failed_cex :
    GetByTaskID (handleOCR envC4 "t1" [procTask]) "t1" =
      some { procTask with status := ProcessingStatusFailed, content := ""
                           errorMessage := "upsert chunks: boom" } ∧
    ProcessingStatusFailed ≠ ProcessingStatusCompleted := by
  refine ⟨?_, ?_⟩ <;> decide

/-- C4 amended: on a successful extraction, the fate of the task follows
the batch upsert — if `UpsertChunks` fails, the task is marked FAILED with
reason `"upsert chunks: <cause>"` (the successful extraction is not
preserved and no separate ingestion flag is recorded); only if the upsert
succeeds is the task marked COMPLETED, with content `"embedded"` and the
chunk count in metadata. -/
theorem handleOCR_upsert_outcomes (env : OCREnv) (t : String) (ts : TaskStore)
    (url text : String)
    (hp : env.presign = .ok url) (hd : env.dialOcr = .ok ())
    (hpo : env.processOcr = .ok ()) (hpoll : env.poll = .completed)
    (hf : env.fetchResult = .ok text) (htext : text ≠ "")
    (hchunks : splitTextToChunks text.data ≠ [])
    (hllm : env.dialLlm = .ok ()) :
    (∀ e, env.upsert = .error e →
      handleOCR env t ts =
        UpdateProcessingResult ts t ProcessingStatusFailed "" none
          ("upsert chunks: " ++ e)) ∧
    (∀ n, env.upsert = .ok n →
      handleOCR env t ts =
        UpdateProcessingResult ts t ProcessingStatusCompleted "embedded"
          (some [("chunks", .mvInt n)]) "") := by
  constructor
  · intro e hup
    unfold handleOCR
    rw [hp, hd, hpo, hpoll, hf, hllm, hup]
    simp [htext, hchunks]
  · intro n hup
    unfold handleOCR
    rw [hp, hd, hpo, hpoll, hf, hllm, hup]
    simp [htext, hchunks]

/-- Witness for C4's amended theorem at the concrete failing-upsert
environment. -/
theorem handleOCR_upsert_outcomes_witness :
    handleOCR envC4 "t1" [procTask] =
      UpdateProcessingResult [procTask] "t1" ProcessingStatusFailed "" none
        "upsert chunks: boom" :=
  (handleOCR_upsert_outcomes envC4 "t1" [procTask] "http://example/u" "hello"
    rfl rfl rfl rfl rfl (by decide) (by decide) rfl).1 "boom" rfl

/-! ## C3 — a FAILED task observable with an empty error reason -/

/-- Dispatch environment with the Kafka route configured and all external
calls succeeding. -/
def envKafka : DispatchEnv :=
  { kafkaConfigured := true, presign := .ok "http://example/u"
    marshal := .ok (), publish := .ok () }

/-- The task row after a successful Kafka dispatch. -/
def dispatchedTask : ProcessingResult :=
  { materialID := "m1", taskID := "t1", ptype := "OCR"
    status := "processing", content := ""
    metadata := some [("dispatched", .mvBool true)], errorMessage := "" }

/-- The task row after the consumer's FAILED callback: status FAILED, but
the error message is still empty. -/
def failedEmptyTask : ProcessingResult :=
  { materialID := "m1", taskID := "t1", ptype := "OCR"
    status := "failed", content := ""
    metadata := some [("source", .mvStr "ocr-service")], errorMessage := "" }

/-- C3 fails on the code: the queue-consumer reconciliation path
(`startConsumer` in ocr-service main.go) always calls back with
`ErrorMessage: ""`.  Dispatching a task via the queue and letting the
worker fail leaves a task that `GetProcessingResult` reports as FAILED
with an empty error reason — exactly what the claim says a client can
never observe.  The callback even reports success. -/
theorem failed_task_empty_reason_bug :
    (ProcessMaterial envKafka "t1" ⟨[matM1], []⟩ "m1" "u1" "OCR").2.tasks =
      [dispatchedTask] ∧
    (consumerCallback [dispatchedTask] "t1" .workerFailed).2 =
      [failedEmptyTask] ∧
    (consumerCallback [dispatchedTask] "t1" .workerFailed).1.success = true ∧
    GetProcessingResult [failedEmptyTask] "m1" "OCR" = some failedEmptyTask ∧
    failedEmptyTask.status = ProcessingStatusFailed ∧
    failedEmptyTask.errorMessage = "" := by
  refine ⟨?_, ?_, ?_, ?_, rfl, rfl⟩ <;> decide

/-! ## C7 — re-entrancy of the worker adapter's submit -/

/-- A tracked QUEUED record for task `t1` (as `getTask` registers it). -/
def queuedT1 : TaskStatusResponse :=
  { taskId := "t1", status := .queued, message := "queued"
    errorMessage := "", progress := 0 }

/-- Adapter state tracking `t1` as QUEUED, nothing cached. -/
def ocrStQueued : OCRState := ⟨[("t1", queuedT1)], []⟩

/-- C7 counterexample: for a task id whose tracked status is QUEUED,
`ProcessOCR` with a file URL does start the underlying job (it spawns
`runOCRTask`) and returns PROCESSING, not the task's current status. -/
theorem processOCR_queued_starts_job_cex :
    (alookup ocrStQueued.statusStore "t1").map TaskStatusResponse.status =
      some AIStatus.queued ∧
    (ProcessOCR ocrStQueued "f" "t1" "http://example/file").2.2 = true ∧
    (ProcessOCR ocrStQueued "f" "t1" "http://example/file").1.status =
      AIStatus.processing ∧
    AIStatus.processing ≠ AIStatus.queued := by
  refine ⟨?_, ?_, ?_, ?_⟩ <;> decide

/-- The adapter state after `ProcessOCR` marks task `tid` (tracked record
`t`) as PROCESSING and spawns its job. -/
def startedState (st : OCRState) (tid : String) (t : TaskStatusResponse) :
    OCRState :=
  let t' : TaskStatusResponse := { t with status := .processing, message := "downloading" }
  { st with statusStore := aupdate st.statusStore tid t' }

/-- C7 amended: the adapter short-circuits only PROCESSING (and cached
COMPLETED) tasks: while the tracked status is PROCESSING, `ProcessOCR`
starts no job, leaves the state unchanged and returns the current status —
so queue redelivery cannot double-submit a running job; but a task whose
tracked status is QUEUED or FAILED is (re)dispatched: `ProcessOCR` with a
non-blank file URL marks it PROCESSING and spawns the underlying job. -/
theorem processOCR_reentrancy (st : OCRState) (fresh tid url : String)
    (t : TaskStatusResponse) (hres : alookup st.ocrStore tid = none)
    (htrack : alookup st.statusStore tid = some t) (hid : tid ≠ "") :
    (t.status = .processing →
      ProcessOCR st fresh tid url =
        ({ taskId := tid, status := .processing, text := "" }, st, false)) ∧
    (t.status = .queued ∨ t.status = .failed → trimSpace url.data ≠ [] →
      ProcessOCR st fresh tid url =
        ({ taskId := tid, status := .processing, text := "" },
          startedState st tid t, true)) := by
  constructor
  · intro hproc
    simp only [ProcessOCR, getTask, if_neg hid, hres, htrack]
    by_cases hurl : trimSpace url.data = [] <;> simp [hurl, hproc]
  · intro hqf hurl
    simp only [ProcessOCR, getTask, if_neg hid, hres, htrack]
    rcases hqf with hq | hf
    · simp [hurl, hq, startedState]
    · simp [hurl, hf, startedState]

/-- A tracked PROCESSING record for task `t1`. -/
def processingT1 : TaskStatusResponse :=
  { taskId := "t1", status := .processing, message := "downloading"
    errorMessage := "", progress := 0 }

/-- Witness for C7's amended theorem: re-submitting a PROCESSING task
returns its current status without starting a job or touching state. -/
theorem processOCR_reentrancy_witness :
    ProcessOCR ⟨[("t1", processingT1)], []⟩ "f" "t1" "http://example/file" =
      ({ taskId := "t1", status := .processing, text := "" },
        (⟨[("t1", processingT1)], []⟩ : OCRState), false) :=
  (processOCR_reentrancy ⟨[("t1", processingT1)], []⟩ "f" "t1"
    "http://example/file" processingT1 (by decide) (by decide) (by decide)).1 rfl

/-! ## C10 — status queries are total and register unknown ids -/

/-- The record `getTask` registers for an unknown id. -/
def queuedRec (tid : String) : TaskStatusResponse :=
  { taskId := tid, status := .queued, message := "queued"
    errorMessage := "", progress := 0 }

/-- `aupdate` on an absent key appends. -/
theorem aupdate_of_not_found {α : Type} (l : List (String × α)) (k : String)
    (v : α) (h : alookup l k = none) : aupdate l k v = l ++ [(k, v)] := by
  unfold aupdate
  unfold alookup at h
  rw [Option.map_eq_none'] at h
  simp [h]

/-- C10: the status query is total and never reports NotFound — for an
unknown task id `GetTaskStatus` replies with a QUEUED record and registers
it in the status store as a side effect; for a tracked id it returns the
stored record unchanged; an empty task id is replaced by a freshly minted
identifier, in `GetTaskStatus` and in `ProcessOCR` alike. -/
theorem getTaskStatus_total (st : OCRState) (tid fresh url : String)
    (t : TaskStatusResponse) :
    (tid ≠ "" → alookup st.statusStore tid = none →
      GetTaskStatus st fresh tid =
        (queuedRec tid,
          { st with statusStore := st.statusStore ++ [(tid, queuedRec tid)] })) ∧
    (tid ≠ "" → alookup st.statusStore tid = some t →
      GetTaskStatus st fresh tid = (t, st)) ∧
    (alookup st.statusStore fresh = none →
      (GetTaskStatus st fresh "").1 = queuedRec fresh) ∧
    (alookup st.ocrStore fresh = none → alookup st.statusStore fresh = none →
      (ProcessOCR st fresh "" url).1.taskId = fresh) := by
  refine ⟨?_, ?_, ?_, ?_⟩
  · intro hid hnone
    simp only [GetTaskStatus, getTask, if_neg hid, hnone,
      aupdate_of_not_found _ _ _ hnone]
    rfl
  · intro hid hsome
    simp only [GetTaskStatus, getTask, if_neg hid, hsome]
  · intro hnone
    simp [GetTaskStatus, getTask, hnone, queuedRec]
  · intro hres hnone
    simp only [ProcessOCR, getTask]
    by_cases hurl : trimSpace url.data = [] <;> simp [hres, hnone, hurl]

/-- Witness for C10 on an empty adapter state: querying the never-submitted
id `tx` registers it as QUEUED. -/
theorem getTaskStatus_total_witness :
    GetTaskStatus ⟨[], []⟩ "f" "tx" =
      (queuedRec "tx", (⟨[("tx", queuedRec "tx")], []⟩ : OCRState)) :=
  (getTaskStatus_total ⟨[], []⟩ "tx" "f" "http://example/file"
    (queuedRec "tx")).1 (by decide) rfl

/-! ## C5 — chunking: byte lengths, trimming and splitting -/

theorem byteLen_nil : byteLen [] = 0 := rfl

theorem byteLen_cons (c : Char) (cs : List Char) :
    byteLen (c :: cs) = c.utf8Size + byteLen cs := by
  simp [byteLen]

theorem byteLen_append (a b : List Char) :
    byteLen (a ++ b) = byteLen a + byteLen b := by
  simp [byteLen]

theorem byteLen_replicate (n : Nat) (c : Char) :
    byteLen (List.replicate n c) = n * c.utf8Size := by
  simp [byteLen, List.map_replicate, List.sum_replicate, smul_eq_mul]

theorem byteLen_eq_zero (cs : List Char) : byteLen cs = 0 ↔ cs = [] := by
  cases cs with
  | nil => simp [byteLen]
  | cons c cs =>
    simp only [byteLen_cons, List.cons_ne_nil, iff_false]
    have := Char.utf8Size_pos c
    omega

theorem byteLen_pos (cs : List Char) : 0 < byteLen cs ↔ cs ≠ [] := by
  rw [Nat.pos_iff_ne_zero]
  exact not_congr (byteLen_eq_zero cs)

theorem dropWhile_eq_self_of_all {p : Char → Bool} (cs : List Char)
    (h : ∀ c ∈ cs, p c = false) : cs.dropWhile p = cs := by
  cases cs with
  | nil => rfl
  | cons c cs => simp [List.dropWhile_cons, h c (List.mem_cons_self c cs)]

/-- Trimming a string with no whitespace at all is the identity. -/
theorem trimSpace_eq_self (cs : List Char) (h : ∀ c ∈ cs, isGoSpace c = false) :
    trimSpace cs = cs := by
  unfold trimSpace
  rw [dropWhile_eq_self_of_all cs h,
    dropWhile_eq_self_of_all cs.reverse (fun c hc => h c (List.mem_reverse.mp hc)),
    List.reverse_reverse]

/-- Trimming a string whose first and last characters are not whitespace is
the identity (inner whitespace, e.g. newlines, is untouched). -/
theorem trimSpace_sandwich (c d : Char) (mid : List Char)
    (hc : isGoSpace c = false) (hd : isGoSpace d = false) :
    trimSpace (c :: (mid ++ [d])) = c :: (mid ++ [d]) := by
  unfold trimSpace
  rw [List.dropWhile_cons]
  simp only [hc, Bool.false_eq_true, if_false]
  rw [List.reverse_cons, List.reverse_append, List.reverse_singleton,
    List.singleton_append, List.cons_append, List.dropWhile_cons]
  simp only [hd, Bool.false_eq_true, if_false]
  simp [List.reverse_append]

theorem splitOnNl_no_nl (cs : List Char) (h : '\n' ∉ cs) : splitOnNl cs = [cs] := by
  induction cs with
  | nil => rfl
  | cons c cs ih =>
    simp only [List.mem_cons, not_or] at h
    obtain ⟨h1, h2⟩ := h
    unfold splitOnNl
    rw [if_neg (fun e => h1 e.symm), ih h2]

theorem splitOnNl_append (A rest : List Char) (h : '\n' ∉ A) :
    splitOnNl (A ++ '\n' :: rest) = A :: splitOnNl rest := by
  induction A with
  | nil =>
    simp only [List.nil_append]
    conv_lhs => unfold splitOnNl
    rw [if_pos rfl]
  | cons c A ih =>
    simp only [List.mem_cons, not_or] at h
    obtain ⟨h1, h2⟩ := h
    rw [List.cons_append]
    conv_lhs => unfold splitOnNl
    rw [if_neg (fun e => h1 e.symm), ih h2]

theorem joinNl_append_singleton (xs : List (List Char)) (y : List Char)
    (h : xs ≠ []) : joinNl (xs ++ [y]) = joinNl xs ++ '\n' :: y := by
  induction xs with
  | nil => exact absurd rfl h
  | cons a xs ih =>
    cases xs with
    | nil => simp [joinNl]
    | cons b xs =>
      rw [List.cons_append, List.cons_append]
      show joinNl (a :: (b :: (xs ++ [y]))) = _
      rw [joinNl]
      · rw [← List.cons_append, ih (List.cons_ne_nil b xs), joinNl]
        simp [List.append_assoc]

theorem joinNl_ne_nil (xs : List (List Char)) (h : xs ≠ [])
    (hall : ∀ l ∈ xs, l ≠ []) : joinNl xs ≠ [] := by
  cases xs with
  | nil => exact absurd rfl h
  | cons a xs =>
    cases xs with
    | nil => simpa [joinNl] using hall a (List.mem_cons_self a [])
    | cons b xs => simp [joinNl]

/-- A line that trims to empty is skipped. -/
theorem chunksLoop_cons_skip (l : List Char) (rest : List (List Char))
    (out : List (List Char)) (cur : List Char) (hl : trimSpace l = []) :
    chunksLoop (l :: rest) out cur = chunksLoop rest out cur := by
  simp [chunksLoop, hl]

/-- A line that does not fit flushes the current chunk — even when that
chunk is empty — and opens a new chunk holding just the line. -/
theorem chunksLoop_cons_flush (l : List Char) (rest : List (List Char))
    (out : List (List Char)) (cur : List Char) (hl : trimSpace l ≠ [])
    (hf : byteLen cur + byteLen (trimSpace l) + 1 > 500) :
    chunksLoop (l :: rest) out cur = chunksLoop rest (out ++ [cur]) (trimSpace l) := by
  simp only [chunksLoop]
  rw [if_neg hl, if_pos hf]
  simp [byteLen_nil]

/-- A fitting line starting a fresh chunk. -/
theorem chunksLoop_cons_start (l : List Char) (rest : List (List Char))
    (out : List (List Char)) (hl : trimSpace l ≠ [])
    (hf : ¬ byteLen ([] : List Char) + byteLen (trimSpace l) + 1 > 500) :
    chunksLoop (l :: rest) out [] = chunksLoop rest out (trimSpace l) := by
  simp only [chunksLoop]
  rw [if_neg hl, if_neg hf]
  simp [byteLen_nil]

/-- A fitting line appended to a non-empty current chunk, separated by a
newline. -/
theorem chunksLoop_cons_append (l : List Char) (rest : List (List Char))
    (out : List (List Char)) (cur : List Char) (hl : trimSpace l ≠ [])
    (hcur : cur ≠ []) (hf : ¬ byteLen cur + byteLen (trimSpace l) + 1 > 500) :
    chunksLoop (l :: rest) out cur =
      chunksLoop rest out (cur ++ '\n' :: trimSpace l) := by
  simp only [chunksLoop]
  rw [if_neg hl, if_neg hf]
  have : 0 < byteLen cur := (byteLen_pos cur).mpr hcur
  simp [this]

/-- Terminal step: a non-empty current chunk is emitted. -/
theorem chunksLoop_nil_emit (out : List (List Char)) (cur : List Char)
    (hcur : cur ≠ []) : chunksLoop [] out cur = out ++ [cur] := by
  have : 0 < byteLen cur := (byteLen_pos cur).mpr hcur
  simp [chunksLoop, this]

/-- Terminal step with an empty current chunk. -/
theorem chunksLoop_nil_skip (out : List (List Char)) :
    chunksLoop [] out [] = out := by
  simp [chunksLoop, byteLen_nil]

/-- Partition invariant of the chunk loop: the chunks it produces are
newline-joins of consecutive blocks of the trimmed non-empty lines — no
line is ever cut across two chunks. -/
theorem chunksLoop_partition (ls : List (List Char))
    (outB : List (List (List Char))) (curB : List (List Char))
    (hcur : ∀ l ∈ curB, l ≠ []) :
    ∃ blocks : List (List (List Char)),
      chunksLoop ls (outB.map joinNl) (joinNl curB) = blocks.map joinNl ∧
      blocks.join =
        outB.join ++ curB ++ (ls.map trimSpace).filter (fun l => l ≠ []) := by
  induction ls generalizing outB curB with
  | nil =>
    by_cases h : curB = []
    · subst h
      refine ⟨outB, ?_, by simp⟩
      rw [show joinNl ([] : List (List Char)) = [] from rfl, chunksLoop_nil_skip]
    · have hne : joinNl curB ≠ [] := joinNl_ne_nil curB h hcur
      refine ⟨outB ++ [curB], ?_, by simp⟩
      rw [chunksLoop_nil_emit _ _ hne]
      simp
  | cons l rest ih =>
    by_cases hl : trimSpace l = []
    · obtain ⟨blocks, h1, h2⟩ := ih outB curB hcur
      refine ⟨blocks, ?_, ?_⟩
      · rw [chunksLoop_cons_skip _ _ _ _ hl, h1]
      · rw [h2]
        simp [hl]
    · by_cases hflush : byteLen (joinNl curB) + byteLen (trimSpace l) + 1 > 500
      · obtain ⟨blocks, h1, h2⟩ := ih (outB ++ [curB]) [trimSpace l]
          (by intro x hx; rw [List.mem_singleton] at hx; subst hx; exact hl)
        refine ⟨blocks, ?_, ?_⟩
        · rw [chunksLoop_cons_flush _ _ _ _ hl hflush, ← h1]
          simp [joinNl]
        · rw [h2]
          simp [hl, List.append_assoc]
      · by_cases h : curB = []
        · subst h
          obtain ⟨blocks, h1, h2⟩ := ih outB [trimSpace l]
            (by intro x hx; rw [List.mem_singleton] at hx; subst hx; exact hl)
          refine ⟨blocks, ?_, ?_⟩
          · have hf : ¬ byteLen ([] : List Char) + byteLen (trimSpace l) + 1 > 500 := by
              simpa [joinNl, byteLen_nil] using hflush
            rw [show joinNl ([] : List (List Char)) = [] from rfl,
              chunksLoop_cons_start _ _ _ hl hf, ← h1]
            rfl
          · rw [h2]
            simp [hl]
        · have hne : joinNl curB ≠ [] := joinNl_ne_nil curB h hcur
          obtain ⟨blocks, h1, h2⟩ := ih outB (curB ++ [trimSpace l])
            (by
              intro x hx
              rw [List.mem_append, List.mem_singleton] at hx
              rcases hx with hx | hx
              · exact hcur x hx
              · subst hx; exact hl)
          refine ⟨blocks, ?_, ?_⟩
          · rw [chunksLoop_cons_append _ _ _ _ hl hne hflush, ← h1,
              joinNl_append_singleton curB (trimSpace l) h]
          · rw [h2]
            simp [hl, List.append_assoc]

/-- The chunks of any text are newline-joins of consecutive blocks of its
trimmed non-empty lines. -/
theorem splitTextToChunks_partition (text : List Char) :
    ∃ blocks : List (List (List Char)),
      splitTextToChunks text = blocks.map joinNl ∧
      blocks.join = cleanLines text := by
  unfold splitTextToChunks cleanLines
  by_cases h : trimSpace text = []
  · refine ⟨[], by simp [h], ?_⟩
    rw [h]
    simp [splitOnNl, trimSpace]
  · obtain ⟨blocks, h1, h2⟩ :=
      chunksLoop_partition (splitOnNl (trimSpace text)) [] [] (by simp)
    refine ⟨blocks, ?_, h2⟩
    rw [if_neg h, ← h1]
    rfl

/-- A single oversized line (no newline, longer than the bound, nothing to
trim) is emitted whole — but preceded by a flush of the still-empty
current chunk, i.e. an empty first chunk. -/
theorem splitTextToChunks_single_oversized (l : List Char)
    (htrim : trimSpace l = l) (hne : l ≠ []) (hbig : byteLen l + 1 > 500)
    (hnl : '\n' ∉ l) : splitTextToChunks l = [[], l] := by
  unfold splitTextToChunks
  rw [htrim, if_neg hne, splitOnNl_no_nl l hnl]
  rw [chunksLoop_cons_flush l [] [] [] (by rw [htrim]; exact hne)
    (by rw [htrim, byteLen_nil]; omega)]
  rw [htrim, chunksLoop_nil_emit _ _ hne]
  rfl

/-- The claim's 1200-character, newline-free input. -/
def bigLine : List Char := List.replicate 1200 'a'

theorem trimSpace_bigLine : trimSpace bigLine = bigLine :=
  trimSpace_eq_self _ fun c hc => by rw [List.eq_of_mem_replicate hc]; rfl

theorem bigLine_ne_nil : bigLine ≠ [] := by
  intro h
  have := congrArg List.length h
  rw [bigLine, List.length_replicate] at this
  simp at this

theorem byteLen_bigLine : byteLen bigLine = 1200 := by
  rw [bigLine, byteLen_replicate]
  rfl

theorem nl_not_mem_bigLine : '\n' ∉ bigLine := fun h => by
  have := List.eq_of_mem_replicate h
  simp at this

/-- The claim's three-100-character-lines input (its own newline-join). -/
def threeLines : List Char :=
  List.replicate 100 'b' ++ '\n' :: (List.replicate 100 'c' ++ '\n' :: List.replicate 100 'd')

/-- C5 counterexample: on the 1200-character newline-free input the
chunker emits two chunks — a spurious empty chunk flushed ahead of the
oversized line, then the whole line — not exactly one chunk. -/
theorem splitTextToChunks_oversized_cex :
    splitTextToChunks bigLine = [[], bigLine] ∧
    (splitTextToChunks bigLine).length ≠ 1 := by
  have h := splitTextToChunks_single_oversized bigLine trimSpace_bigLine
    bigLine_ne_nil (by rw [byteLen_bigLine]; omega) nl_not_mem_bigLine
  refine ⟨h, ?_⟩
  rw [h]
  decide

set_option maxRecDepth 4000 in
/-- C5 amended: the 1200-character newline-free input yields the oversized
line as a single unsplit chunk, but preceded by a spurious empty chunk
(two chunks in total); three 100-character lines yield exactly one chunk,
the three lines joined by newlines; and in general no line is ever split
across two chunks — every chunk is the newline-join of a consecutive block
of the input's trimmed non-empty lines. -/
theorem splitTextToChunks_amended :
    splitTextToChunks bigLine = [[], bigLine] ∧
    splitTextToChunks threeLines = [threeLines] ∧
    ∀ text : List Char, ∃ blocks : List (List (List Char)),
      splitTextToChunks text = blocks.map joinNl ∧
      blocks.join = cleanLines text := by
  refine ⟨?_, ?_, splitTextToChunks_partition⟩
  · exact splitTextToChunks_single_oversized bigLine trimSpace_bigLine
      bigLine_ne_nil (by rw [byteLen_bigLine]; omega) nl_not_mem_bigLine
  · decide

end ArkStudy
